import Mathlib

/-!
Verification of the Safety-Validated Query Execution & Recovery Loop of the
Talk_to_your_db repository.  Strings are modelled as `List Char`; Python's
ASCII-range string operations (`upper`, `strip`, `rstrip`, regular-expression
word boundaries and `\s`) are embedded directly.  Each component keeps the
name it has in the source (`sql_generator.py`, `query_executor.py`,
`agent.py`, `result_formatter.py`).
-/

namespace TalkDB

/-- Shorthand: the character list of a string literal. -/
def s2l (s : String) : List Char := s.data

/-- Characters matched by Python's `\s` / stripped by `str.strip` (ASCII range). -/
def isSpaceC (c : Char) : Bool :=
  c == ' ' || c == '\t' || c == '\n' || c == '\r' || c == '\x0b' || c == '\x0c'

/-- Python regex word character `\w` (ASCII range): letters, digits, underscore. -/
def isWordChar (c : Char) : Bool := c.isAlphanum || c == '_'

/-- `str.upper` (ASCII range, which covers the SQL keywords involved). -/
def upperL (s : List Char) : List Char := s.map Char.toUpper

/-- Does `s` begin with `pat` (Python `str.startswith`)? -/
def startsWithL (pat s : List Char) : Bool :=
  match pat, s with
  | [], _ => true
  | _ :: _, [] => false
  | a :: as, b :: bs => a == b && startsWithL as bs

/-- Python's substring test `pat in s`. -/
def substrIn (pat : List Char) : List Char → Bool
  | [] => startsWithL pat []
  | c :: rest => startsWithL pat (c :: rest) || substrIn pat rest

/-- Does `s` begin with `kw` immediately followed by a `\b` word boundary? -/
def wordAtHead (kw s : List Char) : Bool :=
  match kw, s with
  | [], [] => true
  | [], c :: _ => !isWordChar c
  | _ :: _, [] => false
  | a :: as, b :: bs => a == b && wordAtHead as bs

/-- Word-boundary test for the character (if any) preceding a match position. -/
def boundaryB : Option Char → Bool
  | none => true
  | some c => !isWordChar c

/-- Scan helper for `re.search(rf'\b{kw}\b', s)`: `prev` is the character just
before the current position. -/
def wordSearch (kw : List Char) : Option Char → List Char → Bool
  | prev, [] => boundaryB prev && wordAtHead kw []
  | prev, c :: rest => (boundaryB prev && wordAtHead kw (c :: rest)) || wordSearch kw (some c) rest

/-- `re.search(rf'\b{kw}\b', s)` succeeds: `kw` occurs in `s` as a whole word. -/
def containsWord (kw s : List Char) : Bool := wordSearch kw none s

/-- Python `str.lstrip()` (leading whitespace removed). -/
def ltrim (s : List Char) : List Char := s.dropWhile isSpaceC

/-- Drop the maximal run of characters satisfying `p` from the end of the list
(Python `str.rstrip`). -/
def rdrop (p : Char → Bool) : List Char → List Char
  | [] => []
  | c :: rest =>
    match rdrop p rest with
    | [] => if p c then [] else [c]
    | r => c :: r

/-- Python `str.strip()`. -/
def stripL (s : List Char) : List Char := rdrop isSpaceC (ltrim s)

/-- Python `str.rstrip(';')`. -/
def rstripSemi (s : List Char) : List Char := rdrop (fun c => c == ';') s

/-- Helper for `re.sub(r'\s+', ' ', s)`: the flag records whether the previous
character of the input was whitespace (so further whitespace is dropped). -/
def collapseAux : Bool → List Char → List Char
  | _, [] => []
  | prevSp, c :: rest =>
    if isSpaceC c then
      if prevSp then collapseAux true rest
      else ' ' :: collapseAux true rest
    else c :: collapseAux false rest

/-- `re.sub(r'\s+', ' ', s)`: every maximal whitespace run becomes one space. -/
def collapseWS (s : List Char) : List Char := collapseAux false s

/-- Python `str.endswith(';')`. -/
def endsWithSemi (s : List Char) : Bool :=
  match s.getLast? with
  | some c => c == ';'
  | none => false

/-! ## SQLGenerator (src/sql_generator.py) -/

/-- `SQLGenerator.FORBIDDEN_KEYWORDS` (a Python set; listed in source order). -/
def FORBIDDEN_KEYWORDS : List (List Char) :=
  [s2l "INSERT", s2l "UPDATE", s2l "DELETE", s2l "DROP", s2l "ALTER", s2l "CREATE",
   s2l "TRUNCATE", s2l "REPLACE", s2l "PRAGMA", s2l "ATTACH", s2l "DETACH"]

/-- `SQLGenerator.DEFAULT_LIMIT`. -/
def DEFAULT_LIMIT : Nat := 100

/-- Reason string produced for a forbidden keyword. -/
def forbiddenMsg (kw : List Char) : List Char :=
  s2l "Forbidden operation detected: " ++ kw ++ s2l ". Only SELECT queries are allowed."

/-- Reason string for `SELECT *` without `LIMIT`. -/
def selectStarMsg : List Char :=
  s2l "SELECT * must include a LIMIT clause to prevent large result sets."

/-- Reason string for a statement that is not a SELECT/WITH. -/
def notSelectMsg : List Char :=
  s2l "Only SELECT queries (including CTEs with WITH) are allowed."

/-- `SQLGenerator.validate_query`: forbidden-keyword check, then the
`SELECT *`-without-`LIMIT` check, then the starts-with-SELECT/WITH check. -/
def validate_query (sql : List Char) : Bool × Option (List Char) :=
  match FORBIDDEN_KEYWORDS.find? (fun kw => containsWord kw (upperL sql)) with
  | some kw => (false, some (forbiddenMsg kw))
  | none =>
    if substrIn (s2l "SELECT *") (upperL sql) && !substrIn (s2l "LIMIT") (upperL sql) then
      (false, some selectStarMsg)
    else if !startsWithL (s2l "SELECT") (stripL (upperL sql))
         && !startsWithL (s2l "WITH") (stripL (upperL sql)) then
      (false, some notSelectMsg)
    else (true, none)

/-- `QueryPlan` (src/sql_generator.py). -/
structure QueryPlan where
  intent : List Char
  tables : List (List Char)
  columns : List (List Char)
  joins : List (List Char)
  filters : List (List Char)
  grouping : Option (List Char)
  ordering : Option (List Char)
  limit : Option Int

/-- Python truthiness of an `Optional[str]`: `None` and `""` are falsy. -/
def optTruthy : Option (List Char) → Bool
  | none => false
  | some s => !s.isEmpty

/-- Python f-string rendering of an `Optional[str]` (`None` prints as "None"). -/
def optStr : Option (List Char) → List Char
  | none => s2l "None"
  | some s => s

/-- Python `sep.join(parts)`. -/
def joinSep (sep : List Char) : List (List Char) → List Char
  | [] => []
  | [x] => x
  | x :: y :: rest => x ++ sep ++ joinSep sep (y :: rest)

/-- The SELECT-list text: joined column names, or `*` when none are given. -/
def columnsStr (plan : QueryPlan) : List Char :=
  if plan.columns.isEmpty then s2l "*" else joinSep (s2l ", ") plan.columns

/-- The LIMIT clause appended by `build_query_from_plan`: the explicit limit if
one is set, else the default limit when there is no grouping and no `COUNT` in
the select list, else nothing. -/
def limitClause (plan : QueryPlan) : List (List Char) :=
  match plan.limit with
  | some n => [s2l "LIMIT " ++ s2l (toString n)]
  | none =>
    if !optTruthy plan.grouping && !substrIn (s2l "COUNT") (upperL (columnsStr plan)) then
      [s2l "LIMIT " ++ s2l (toString DEFAULT_LIMIT)]
    else []

/-- The `query_parts` list built by `build_query_from_plan` when the first
table is `t`: SELECT, FROM, JOIN*, WHERE, GROUP BY, ORDER BY, LIMIT. -/
def queryParts (plan : QueryPlan) (t : List Char) : List (List Char) :=
  [s2l "SELECT " ++ columnsStr plan, s2l "FROM " ++ t]
  ++ plan.joins
  ++ (if plan.filters.isEmpty then []
      else [s2l "WHERE " ++ joinSep (s2l " AND ") plan.filters])
  ++ (if optTruthy plan.grouping then [s2l "GROUP BY " ++ plan.grouping.getD []] else [])
  ++ (if optTruthy plan.ordering then [s2l "ORDER BY " ++ plan.ordering.getD []] else [])
  ++ limitClause plan

/-- `"\n".join(query_parts) + ";"`. -/
def composeQuery (plan : QueryPlan) (t : List Char) : List Char :=
  joinSep (s2l "\n") (queryParts plan t) ++ s2l ";"

/-- `SQLGenerator.build_query_from_plan`; a raised `ValueError` is modelled as
`Except.error` carrying the exception message. -/
def build_query_from_plan (plan : QueryPlan) : Except (List Char) (List Char) :=
  match plan.tables with
  | [] => .error (s2l "Query plan must specify at least one table")
  | t :: _ =>
    let query := composeQuery plan t
    match validate_query query with
    | (true, _) => .ok query
    | (false, e) => .error (s2l "Generated query failed validation: " ++ optStr e)

/-- The `if not sql.endswith(';'): sql += ';'` step of `optimize_query`. -/
def ensureSemi (s : List Char) : List Char :=
  if endsWithSemi s then s else s ++ [';']

/-- `SQLGenerator.optimize_query`: collapse whitespace and strip, ensure a
terminating semicolon, and append the default LIMIT when neither `LIMIT` nor
`GROUP BY` occurs (case-insensitively). -/
def optimize_query (sql : List Char) : List Char :=
  let s2 := ensureSemi (stripL (collapseWS sql))
  if !substrIn (s2l "LIMIT") (upperL s2) && !substrIn (s2l "GROUP BY") (upperL s2) then
    rstripSemi s2 ++ s2l " LIMIT " ++ s2l (toString DEFAULT_LIMIT) ++ [';']
  else s2

/-- Normal-form predicate on the tail of a string: every whitespace character
is a plain `' '`, never two in a row, and the string does not end in one.
(`tidyTail` does not constrain the first character; see `tidy`.) -/
def tidyTail : List Char → Bool
  | [] => true
  | [c] => !isSpaceC c
  | c :: d :: rest => (if c == ' ' then !isSpaceC d else !isSpaceC c) && tidyTail (d :: rest)

/-- Like `tidyTail` but a single trailing `' '` is allowed — the shape of
`collapseWS` output before stripping. -/
def looseTail : List Char → Bool
  | [] => true
  | [c] => (c == ' ') || !isSpaceC c
  | c :: d :: rest => (if c == ' ' then !isSpaceC d else !isSpaceC c) && looseTail (d :: rest)

/-- The first character (if any) is not whitespace. -/
def headOk : List Char → Bool
  | [] => true
  | c :: _ => !isSpaceC c

/-- The last character (if any) does not satisfy `p`. -/
def lastP (p : Char → Bool) (s : List Char) : Bool :=
  match s.getLast? with
  | none => true
  | some c => !p c

/-- Fully normalized string: what `stripL ∘ collapseWS` produces. -/
def tidy (s : List Char) : Bool := headOk s && tidyTail s

/-! ## QueryExecutor (src/query_executor.py) -/

/-- `QueryResult` (src/query_executor.py).  Cell values are modelled by their
`str(...)` rendering, which is all the formatter ever uses of them; the
execution time is a rational wall-clock duration. -/
structure QueryResult where
  success : Bool
  columns : List (List Char)
  rows : List (List (List Char))
  row_count : Nat
  execution_time : ℚ
  error : Option (List Char) := none
deriving DecidableEq

/-- Outcome of the underlying store call made inside `execute_query`: a fetched
result set, a raised `sqlite3.Error`, or any other raised exception. -/
inductive StoreOutcome where
  | ok (columns : List (List Char)) (rows : List (List (List Char)))
  | sqliteError (msg : List Char)
  | otherError (msg : List Char)

/-- `QueryExecutor.execute_query`: the store outcome and the two wall-clock
reads (`start_time` and the time at result construction) are the inputs the
Python code draws from its environment. -/
def execute_query (outcome : StoreOutcome) (t0 t1 : ℚ) : QueryResult :=
  match outcome with
  | .ok cols rows =>
    { success := true, columns := cols, rows := rows, row_count := rows.length,
      execution_time := t1 - t0, error := none }
  | .sqliteError m =>
    { success := false, columns := [], rows := [], row_count := 0,
      execution_time := t1 - t0, error := some m }
  | .otherError m =>
    { success := false, columns := [], rows := [], row_count := 0,
      execution_time := t1 - t0, error := some (s2l "Unexpected error: " ++ m) }

/-! ## IntelligentAgent retry loop (src/agent.py) -/

/-- `IntelligentAgent.max_retries`. -/
def maxRetries : Nat := 3

/-- `IntelligentAgent._recover_from_error`: `propose` models the LLM call plus
SQL extraction as a function of the failed statement and its error text
(question and schema context are fixed for one loop and folded into it);
`none` models any exception, in which case the original statement is
returned unchanged. -/
def recover_from_error (propose : List Char → Option (List Char) → Option (List Char))
    (failed_sql : List Char) (error : Option (List Char)) : List Char :=
  match propose failed_sql error with
  | some corrected => corrected
  | none => failed_sql

/-- The `for attempt in range(max_retries)` loop of
`IntelligentAgent._execute_with_retry`, recursing on the number of loop
iterations left (`left + attempt = maxRetries` at every call).  `exec` models
`executor.execute_query` as a function of the attempt number and of the
statement; the returned list records the statements executed, in order.  The
`left = 0` case is never reached from `execute_with_retry`. -/
def retryAux (exec : Nat → List Char → QueryResult)
    (recover : List Char → Option (List Char) → List Char) :
    Nat → Nat → List Char → QueryResult × List (List Char)
  | 0, attempt, sql => (exec attempt sql, [sql])
  | left + 1, attempt, sql =>
    let result := exec attempt sql
    if result.success then (result, [sql])
    else if 0 < left then
      let next := retryAux exec recover left (attempt + 1) (recover sql result.error)
      (next.1, sql :: next.2)
    else (result, [sql])

/-- `IntelligentAgent._execute_with_retry`. -/
def execute_with_retry (exec : Nat → List Char → QueryResult)
    (recover : List Char → Option (List Char) → List Char)
    (sql : List Char) : QueryResult × List (List Char) :=
  retryAux exec recover maxRetries 0 sql

/-- The fields of the dictionary returned by `IntelligentAgent.answer_question`
that the claims speak about, plus the trace of executed statements. -/
structure AgentAnswer where
  success : Bool
  error : Option (List Char)
  answer : List Char
  sql : List Char
  row_count : Nat
  executions : List (List Char)

/-- Steps 5-7 of `IntelligentAgent.answer_question`, from the generated
candidate statement on: validate once; on failure return immediately with no
execution; otherwise run the retry loop and synthesize the answer (`synth`
models `_synthesize_answer`). -/
def answer_question (exec : Nat → List Char → QueryResult)
    (recover : List Char → Option (List Char) → List Char)
    (synth : QueryResult → List Char) (sql : List Char) : AgentAnswer :=
  match validate_query sql with
  | (false, e) =>
    { success := false, error := e, sql := sql,
      answer := s2l "Generated SQL failed safety validation: " ++ optStr e,
      row_count := 0, executions := [] }
  | (true, _) =>
    let res := execute_with_retry exec recover sql
    { success := res.1.success, error := none, sql := sql,
      answer := synth res.1,
      row_count := if res.1.success then res.1.row_count else 0,
      executions := res.2 }

/-! ## ResultFormatter (src/result_formatter.py) -/

/-- Python `str.ljust(w)`: pad with spaces on the right up to width `w`. -/
def ljustL (s : List Char) (w : Nat) : List Char :=
  s ++ List.replicate (w - s.length) ' '

/-- The width of one column in `_format_table`: the running `max` over the
header length and every stringified value in the column, capped at 50. -/
def colWidth (rows : List (List (List Char))) (i : Nat) (col : List Char) : Nat :=
  min (rows.foldl (fun m row => max m ((row.getD i []).length)) col.length) 50

/-- The `col_widths` list of `_format_table`: one width per column, built by
the `for i, col in enumerate(result.columns)` loop. -/
def colWidthsAux (rows : List (List (List Char))) : Nat → List (List Char) → List Nat
  | _, [] => []
  | i, col :: cols => colWidth rows i col :: colWidthsAux rows (i + 1) cols

/-- Column widths for a result. -/
def colWidths (r : QueryResult) : List Nat := colWidthsAux r.rows 0 r.columns

/-- Header cells: each column name left-justified to its width (never cut). -/
def headerCells (r : QueryResult) : List (List Char) :=
  List.zipWith ljustL r.columns (colWidths r)

/-- The header row of `_format_table`. -/
def headerLine (r : QueryResult) : List Char :=
  joinSep (s2l " | ") (headerCells r)

/-- Data cells of one row: each value left-justified and then truncated to the
column width. -/
def dataCells (row : List (List Char)) (ws : List Nat) : List (List Char) :=
  List.zipWith (fun v w => (ljustL v w).take w) row ws

/-- One data row of `_format_table`. -/
def dataLine (row : List (List Char)) (ws : List Nat) : List Char :=
  joinSep (s2l " | ") (dataCells row ws)

/-- `ResultFormatter._format_table`. -/
def format_table (r : QueryResult) : List Char :=
  joinSep (s2l "\n")
    ([s2l "✓ Found **" ++ s2l (toString r.row_count) ++ s2l " results**:", [],
      headerLine r, List.replicate (headerLine r).length '-']
     ++ r.rows.map (fun row => dataLine row (colWidths r)))

/-- `ResultFormatter._format_summary`: first 10 rows as a table, then a line
counting the remaining rows. -/
def format_summary (r : QueryResult) : List Char :=
  joinSep (s2l "\n")
    [s2l "✓ Found " ++ s2l (toString r.row_count) ++ s2l " result(s).", [],
     s2l "Showing first 10 rows:", [],
     format_table { success := true, columns := r.columns, rows := r.rows.take 10,
                    row_count := 10, execution_time := r.execution_time, error := none },
     [],
     s2l "... and " ++ s2l (toString (r.row_count - 10)) ++ s2l " more rows."]

/-- `ResultFormatter._format_error`. -/
def format_error (r : QueryResult) : List Char :=
  s2l "❌ Query failed: " ++ optStr r.error

/-- `ResultFormatter._format_empty_result`. -/
def format_empty : List Char :=
  s2l "✓ Query executed successfully, but returned no results.\n\nThis could mean:\n- No data matches the criteria\n- The condition excludes all rows"

/-- `ResultFormatter._format_list` (single-column, multi-row results). -/
def format_list (r : QueryResult) : List Char :=
  let column := r.columns.getD 0 []
  let values := r.rows.map (fun row => row.getD 0 [])
  joinSep (s2l "\n")
    ([s2l "✓ Here are the **" ++ s2l (toString values.length) ++ s2l " "
        ++ column ++ s2l "s** found:", []]
     ++ (values.enumFrom 1).map (fun p => s2l (toString p.1) ++ s2l ". " ++ p.2))

/-- `ResultFormatter.format_result`: branch on result shape.  The
single-value branch (`_format_single_value`) performs regular-expression
subject extraction that no claim touches, so it is a parameter; every theorem
below holds for an arbitrary `single`. -/
def format_result (single : QueryResult → List Char → List Char)
    (r : QueryResult) (question : List Char) : List Char :=
  if !r.success then format_error r
  else if r.row_count == 0 then format_empty
  else if r.row_count == 1 && r.columns.length == 1 then single r question
  else if r.columns.length == 1 then format_list r
  else if r.row_count ≤ 20 then format_table r
  else format_summary r

/-! ## Concrete fixtures used by witness theorems -/

/-- An executor for which every attempt fails (used by witnesses). -/
def allFailExec : Nat → List Char → QueryResult := fun _ _ =>
  { success := false, columns := [], rows := [], row_count := 0,
    execution_time := 0, error := some (s2l "no such column: x") }

/-- A proposer whose call always fails (used by witnesses). -/
def failingProposer : List Char → Option (List Char) → Option (List Char) := fun _ _ => none

/-- A plan with no tables (used by the C7 witness). -/
def emptyTablesPlan : QueryPlan :=
  { intent := s2l "demo", tables := [], columns := [], joins := [], filters := [],
    grouping := none, ordering := none, limit := none }

/-- A concrete 25-row, two-column result (used by the C9 witness). -/
def sampleWide : QueryResult :=
  { success := true, columns := [s2l "name", s2l "country"],
    rows := List.replicate 25 [s2l "Ana", s2l "Brazil"],
    row_count := 25, execution_time := 0, error := none }

/-- A result whose first column name has 51 characters (C10 witness). -/
def wideColResult : QueryResult :=
  { success := true,
    columns := [List.replicate 51 'C', s2l "x"],
    rows := [[List.replicate 60 'v', s2l "w"]],
    row_count := 1, execution_time := 0, error := none }

/-! ## Claim C1: forbidden keywords win and their reason names the keyword -/

/-- Claim C1: whenever some keyword of the fixed forbidden set occurs in the
statement as a case-insensitive whole word, `validate_query` returns invalid
with a reason naming an offending keyword; no assumption about the
`SELECT *`-limit rule or the starts-with-SELECT rule is needed, so the
forbidden-keyword reason wins when several rules are violated. -/
theorem validate_query_forbidden (sql : List Char)
    (h : ∃ kw ∈ FORBIDDEN_KEYWORDS, containsWord kw (upperL sql) = true) :
    (validate_query sql).1 = false ∧
    ∃ kw ∈ FORBIDDEN_KEYWORDS, containsWord kw (upperL sql) = true ∧
      (validate_query sql).2 = some (forbiddenMsg kw) := by
  have hsome : (FORBIDDEN_KEYWORDS.find? (fun kw => containsWord kw (upperL sql))).isSome := by
    rw [List.find?_isSome]
    obtain ⟨k, hk, hm⟩ := h
    exact ⟨k, hk, by simpa using hm⟩
  obtain ⟨k0, hk0⟩ := Option.isSome_iff_exists.mp hsome
  have hmem : k0 ∈ FORBIDDEN_KEYWORDS := List.mem_of_find?_eq_some hk0
  have hp : containsWord k0 (upperL sql) = true := by
    simpa using List.find?_some hk0
  unfold validate_query
  rw [hk0]
  exact ⟨rfl, k0, hmem, hp, rfl⟩

/-- Claim C1 witness: `"SELECT 1; DELETE FROM t;"` contains `DELETE` as a
whole word and is rejected with a keyword-naming reason. -/
theorem validate_query_forbidden_witness :
    (∃ kw ∈ FORBIDDEN_KEYWORDS, containsWord kw (upperL (s2l "SELECT 1; DELETE FROM t;")) = true) ∧
    (validate_query (s2l "SELECT 1; DELETE FROM t;")).1 = false ∧
    (∃ kw ∈ FORBIDDEN_KEYWORDS, containsWord kw (upperL (s2l "SELECT 1; DELETE FROM t;")) = true ∧
      (validate_query (s2l "SELECT 1; DELETE FROM t;")).2 = some (forbiddenMsg kw)) := by
  refine ⟨by decide, ?_⟩
  exact validate_query_forbidden (s2l "SELECT 1; DELETE FROM t;") (by decide)

/-! ## Claim C5: SELECT * requires LIMIT -/

/-- Claim C5: a statement containing `SELECT *` (case-insensitively) without
`LIMIT` is rejected, with the bound-result-size reason when no forbidden
keyword fires first; `"SELECT * FROM Customer;"` is invalid and
`"SELECT * FROM Customer LIMIT 10;"` is valid. -/
theorem validate_query_select_star (sql : List Char)
    (hstar : substrIn (s2l "SELECT *") (upperL sql) = true)
    (hlim : substrIn (s2l "LIMIT") (upperL sql) = false) :
    (validate_query sql).1 = false ∧
    ((∀ kw ∈ FORBIDDEN_KEYWORDS, containsWord kw (upperL sql) = false) →
      (validate_query sql).2 = some selectStarMsg) ∧
    validate_query (s2l "SELECT * FROM Customer;") = (false, some selectStarMsg) ∧
    validate_query (s2l "SELECT * FROM Customer LIMIT 10;") = (true, none) := by
  refine ⟨?_, ?_, by decide, by decide⟩
  · unfold validate_query
    cases hf : FORBIDDEN_KEYWORDS.find? (fun kw => containsWord kw (upperL sql)) with
    | none => simp [hstar, hlim]
    | some k => rfl
  · intro hall
    have hf : FORBIDDEN_KEYWORDS.find? (fun kw => containsWord kw (upperL sql)) = none := by
      rw [List.find?_eq_none]
      intro x hx
      simp [hall x hx]
    unfold validate_query
    rw [hf]
    simp [hstar, hlim]

/-- Claim C5 witness: the theorem applied to `"SELECT * FROM Customer;"`. -/
theorem validate_query_select_star_witness :
    (validate_query (s2l "SELECT * FROM Customer;")).1 = false :=
  (validate_query_select_star (s2l "SELECT * FROM Customer;") (by decide) (by decide)).1

/-! ## Claim C3: the executor converts every failure into a QueryResult -/

/-- Claim C3: `execute_query` is a total function of the store outcome: it
returns either a successful `QueryResult`, or a failure result with empty
columns and rows, zero row count, a non-empty error (prefixed
`"Unexpected error"` for non-store failures) and non-negative execution time.
`hclock` states that the wall clock does not run backwards between the two
reads; `hstore` that the store's own error text is non-empty (as
`str(sqlite3.Error)` is for errors the sqlite3 module raises). -/
theorem execute_query_never_raises (outcome : StoreOutcome) (t0 t1 : ℚ)
    (hclock : t0 ≤ t1)
    (hstore : ∀ m, outcome = StoreOutcome.sqliteError m → m ≠ []) :
    (execute_query outcome t0 t1).success = true ∨
    ((execute_query outcome t0 t1).success = false ∧
     (execute_query outcome t0 t1).columns = [] ∧
     (execute_query outcome t0 t1).rows = [] ∧
     (execute_query outcome t0 t1).row_count = 0 ∧
     (∃ e, (execute_query outcome t0 t1).error = some e ∧ e ≠ []) ∧
     (∀ m, outcome = StoreOutcome.otherError m →
        (execute_query outcome t0 t1).error = some (s2l "Unexpected error: " ++ m)) ∧
     0 ≤ (execute_query outcome t0 t1).execution_time) := by
  have ht : (0 : ℚ) ≤ t1 - t0 := sub_nonneg.mpr hclock
  cases outcome with
  | ok cols rows => left; rfl
  | sqliteError m =>
    right
    refine ⟨rfl, rfl, rfl, rfl, ⟨m, rfl, hstore m rfl⟩, ?_, ht⟩
    intro m' hm'
    cases hm'
  | otherError m =>
    right
    refine ⟨rfl, rfl, rfl, rfl, ⟨s2l "Unexpected error: " ++ m, rfl, by simp [s2l]⟩, ?_, ht⟩
    intro m' hm'
    cases hm'
    rfl

/-- Claim C3 witness: a store-level failure at a concrete input. -/
theorem execute_query_never_raises_witness :
    (execute_query (StoreOutcome.sqliteError (s2l "no such table: t")) 0 1).success = true ∨
    ((execute_query (StoreOutcome.sqliteError (s2l "no such table: t")) 0 1).success = false ∧
     (execute_query (StoreOutcome.sqliteError (s2l "no such table: t")) 0 1).columns = [] ∧
     (execute_query (StoreOutcome.sqliteError (s2l "no such table: t")) 0 1).rows = [] ∧
     (execute_query (StoreOutcome.sqliteError (s2l "no such table: t")) 0 1).row_count = 0 ∧
     (∃ e, (execute_query (StoreOutcome.sqliteError (s2l "no such table: t")) 0 1).error = some e ∧ e ≠ []) ∧
     (∀ m, StoreOutcome.sqliteError (s2l "no such table: t") = StoreOutcome.otherError m →
        (execute_query (StoreOutcome.sqliteError (s2l "no such table: t")) 0 1).error = some (s2l "Unexpected error: " ++ m)) ∧
     0 ≤ (execute_query (StoreOutcome.sqliteError (s2l "no such table: t")) 0 1).execution_time) :=
  execute_query_never_raises (StoreOutcome.sqliteError (s2l "no such table: t")) 0 1
    (by norm_num) (by intro m hm; cases hm; decide)

/-! ## Claim C6: the QueryResult data-model invariant -/

/-- Claim C6: every `QueryResult` produced by `execute_query` satisfies
`row_count = rows.length` (and `row_count = 0` on failure), a non-negative
execution time, and `error` is present exactly when `success` is false. -/
theorem execute_query_invariant (outcome : StoreOutcome) (t0 t1 : ℚ)
    (hclock : t0 ≤ t1) :
    (execute_query outcome t0 t1).row_count = (execute_query outcome t0 t1).rows.length ∧
    ((execute_query outcome t0 t1).success = false → (execute_query outcome t0 t1).row_count = 0) ∧
    0 ≤ (execute_query outcome t0 t1).execution_time ∧
    ((execute_query outcome t0 t1).error.isSome ↔ (execute_query outcome t0 t1).success = false) := by
  have ht : (0 : ℚ) ≤ t1 - t0 := sub_nonneg.mpr hclock
  cases outcome with
  | ok cols rows => exact ⟨rfl, (by intro h; cases h), ht, (by simp [execute_query])⟩
  | sqliteError m => exact ⟨rfl, fun _ => rfl, ht, (by simp [execute_query])⟩
  | otherError m => exact ⟨rfl, fun _ => rfl, ht, (by simp [execute_query])⟩

/-- Claim C6 witness: the invariant at a concrete two-row result. -/
theorem execute_query_invariant_witness :
    (execute_query (StoreOutcome.ok [s2l "n"] [[s2l "1"], [s2l "2"]]) 0 1).row_count
      = (execute_query (StoreOutcome.ok [s2l "n"] [[s2l "1"], [s2l "2"]]) 0 1).rows.length ∧
    ((execute_query (StoreOutcome.ok [s2l "n"] [[s2l "1"], [s2l "2"]]) 0 1).success = false →
      (execute_query (StoreOutcome.ok [s2l "n"] [[s2l "1"], [s2l "2"]]) 0 1).row_count = 0) ∧
    0 ≤ (execute_query (StoreOutcome.ok [s2l "n"] [[s2l "1"], [s2l "2"]]) 0 1).execution_time ∧
    ((execute_query (StoreOutcome.ok [s2l "n"] [[s2l "1"], [s2l "2"]]) 0 1).error.isSome ↔
      (execute_query (StoreOutcome.ok [s2l "n"] [[s2l "1"], [s2l "2"]]) 0 1).success = false) :=
  execute_query_invariant (StoreOutcome.ok [s2l "n"] [[s2l "1"], [s2l "2"]]) 0 1 (by norm_num)

/-! ## Claim C2: bounded retry with recovery -/

/-- Claim C2: when every execution attempt fails, the retry loop performs
exactly `maxRetries = 3` executions and returns the last failing result; a
successful attempt (first or later) stops the loop at once with that result;
and when the proposer call fails, `recover_from_error` re-uses the failed
statement unchanged, so with an always-failing proposer the same statement is
executed three times. -/
theorem execute_with_retry_budget (exec : Nat → List Char → QueryResult)
    (propose : List Char → Option (List Char) → Option (List Char)) (sql : List Char) :
    ((∀ i s, (exec i s).success = false) →
      (let s2 := recover_from_error propose sql (exec 0 sql).error
       let s3 := recover_from_error propose s2 (exec 1 s2).error
       execute_with_retry exec (recover_from_error propose) sql = (exec 2 s3, [sql, s2, s3]) ∧
       (exec 2 s3).success = false)) ∧
    ((exec 0 sql).success = true →
      execute_with_retry exec (recover_from_error propose) sql = (exec 0 sql, [sql])) ∧
    ((exec 0 sql).success = false →
      (exec 1 (recover_from_error propose sql (exec 0 sql).error)).success = true →
      execute_with_retry exec (recover_from_error propose) sql =
        (exec 1 (recover_from_error propose sql (exec 0 sql).error),
         [sql, recover_from_error propose sql (exec 0 sql).error])) ∧
    ((∀ s e, propose s e = none) → (∀ i s, (exec i s).success = false) →
      (execute_with_retry exec (recover_from_error propose) sql).2 = [sql, sql, sql]) := by
  refine ⟨?_, ?_, ?_, ?_⟩
  · intro hfail
    simp [execute_with_retry, maxRetries, retryAux, hfail]
  · intro hsucc
    simp [execute_with_retry, maxRetries, retryAux, hsucc]
  · intro h0 h1
    simp [execute_with_retry, maxRetries, retryAux, h0, h1]
  · intro hnone hfail
    have hrec : ∀ s e, recover_from_error propose s e = s := by
      intro s e
      simp [recover_from_error, hnone]
    simp [execute_with_retry, maxRetries, retryAux, hfail, hrec]

/-- Claim C2 witness: an always-failing executor and proposer at a concrete
statement. -/
theorem execute_with_retry_budget_witness :
    (execute_with_retry allFailExec (recover_from_error failingProposer) (s2l "SELECT x FROM t;")).2
      = [s2l "SELECT x FROM t;", s2l "SELECT x FROM t;", s2l "SELECT x FROM t;"] :=
  (execute_with_retry_budget allFailExec failingProposer (s2l "SELECT x FROM t;")).2.2.2
    (fun _ _ => rfl) (fun _ _ => rfl)

/-! ## Claim C4: validation failure short-circuits the pipeline -/

/-- The statement trace of the retry loop is never empty: once validation
passes, at least one execution happens. -/
lemma retryAux_trace_ne_nil (exec : Nat → List Char → QueryResult)
    (recover : List Char → Option (List Char) → List Char)
    (left attempt : Nat) (sql : List Char) :
    (retryAux exec recover left attempt sql).2 ≠ [] := by
  cases left with
  | zero => simp [retryAux]
  | succ n =>
    simp only [retryAux]
    split
    · simp
    · split
      · simp
      · simp

/-- Claim C4: if the candidate statement fails validation, `answer_question`
terminates immediately with `success = false`, the validation reason as the
error, the validation message as the answer, and an empty execution trace —
no execution attempt and no recovery cycle happens; only when validation
passes does the retry loop run (and then at least one execution occurs). -/
theorem answer_question_validation_short_circuit
    (exec : Nat → List Char → QueryResult)
    (recover : List Char → Option (List Char) → List Char)
    (synth : QueryResult → List Char) (sql : List Char) :
    ((validate_query sql).1 = false →
      ((answer_question exec recover synth sql).success = false ∧
       (answer_question exec recover synth sql).error = (validate_query sql).2 ∧
       (answer_question exec recover synth sql).executions = [] ∧
       (answer_question exec recover synth sql).answer =
         s2l "Generated SQL failed safety validation: " ++ optStr (validate_query sql).2)) ∧
    ((validate_query sql).1 = true →
      ((answer_question exec recover synth sql).executions =
         (execute_with_retry exec recover sql).2 ∧
       (answer_question exec recover synth sql).executions ≠ [])) := by
  constructor
  · intro hbad
    have hv : validate_query sql = (false, (validate_query sql).2) := by
      rw [← hbad]
    rw [answer_question, hv]
    exact ⟨rfl, rfl, rfl, rfl⟩
  · intro hok
    have hv : validate_query sql = (true, (validate_query sql).2) := by
      rw [← hok]
    rw [answer_question, hv]
    exact ⟨rfl, retryAux_trace_ne_nil _ _ _ _ _⟩

/-- Claim C4 witness: the forbidden statement `"DELETE FROM t;"`. -/
theorem answer_question_validation_short_circuit_witness :
    (answer_question allFailExec (recover_from_error failingProposer)
        (fun _ => []) (s2l "DELETE FROM t;")).success = false ∧
    (answer_question allFailExec (recover_from_error failingProposer)
        (fun _ => []) (s2l "DELETE FROM t;")).error
      = (validate_query (s2l "DELETE FROM t;")).2 ∧
    (answer_question allFailExec (recover_from_error failingProposer)
        (fun _ => []) (s2l "DELETE FROM t;")).executions = [] ∧
    (answer_question allFailExec (recover_from_error failingProposer)
        (fun _ => []) (s2l "DELETE FROM t;")).answer
      = s2l "Generated SQL failed safety validation: "
        ++ optStr (validate_query (s2l "DELETE FROM t;")).2 :=
  (answer_question_validation_short_circuit allFailExec (recover_from_error failingProposer)
    (fun _ => []) (s2l "DELETE FROM t;")).1 (by decide)

/-! ## Claim C7: plan composition, default limit, self-certification -/

/-- Claim C7: `build_query_from_plan` raises a construction error for every
plan with an empty tables list; every statement it returns passes
`validate_query` (otherwise it raises a construction error naming the
validation reason); and the default limit `LIMIT 100` is injected exactly when
the plan has no explicit limit, no (truthy) grouping, and no `COUNT` in the
select list.  The clause order SELECT/FROM/JOIN*/WHERE/GROUP BY/ORDER BY/LIMIT
is fixed by `queryParts`. -/
theorem build_query_from_plan_spec (plan : QueryPlan) :
    (plan.tables = [] →
      build_query_from_plan plan = .error (s2l "Query plan must specify at least one table")) ∧
    (∀ q, build_query_from_plan plan = .ok q → (validate_query q).1 = true) ∧
    (plan.limit = none → optTruthy plan.grouping = false →
      substrIn (s2l "COUNT") (upperL (columnsStr plan)) = false →
      limitClause plan = [s2l "LIMIT " ++ s2l (toString DEFAULT_LIMIT)]) ∧
    (∀ n, plan.limit = some n → limitClause plan = [s2l "LIMIT " ++ s2l (toString n)]) ∧
    (plan.limit = none →
      (optTruthy plan.grouping = true ∨ substrIn (s2l "COUNT") (upperL (columnsStr plan)) = true) →
      limitClause plan = []) ∧
    (∀ t ts, plan.tables = t :: ts →
      ((validate_query (composeQuery plan t)).1 = true →
        build_query_from_plan plan = .ok (composeQuery plan t)) ∧
      ((validate_query (composeQuery plan t)).1 = false →
        build_query_from_plan plan =
          .error (s2l "Generated query failed validation: "
                  ++ optStr (validate_query (composeQuery plan t)).2))) := by
  refine ⟨?_, ?_, ?_, ?_, ?_, ?_⟩
  · intro h
    rw [build_query_from_plan, h]
  · intro q hq
    rw [build_query_from_plan] at hq
    cases htab : plan.tables with
    | nil => rw [htab] at hq; cases hq
    | cons t ts =>
      rw [htab] at hq
      simp only at hq
      cases hv : validate_query (composeQuery plan t) with
      | mk ok reason =>
        cases ok with
        | true =>
          rw [hv] at hq
          simp only at hq
          cases hq
          rw [hv]
        | false =>
          rw [hv] at hq
          simp only at hq
          cases hq
  · intro h1 h2 h3
    rw [limitClause, h1]
    simp [h2, h3]
  · intro n hn
    rw [limitClause, hn]
  · intro h1 h2
    rw [limitClause, h1]
    rcases h2 with h | h <;> simp [h]
  · intro t ts htab
    constructor
    · intro hv
      have heq : validate_query (composeQuery plan t) = (true, (validate_query (composeQuery plan t)).2) := by
        rw [← hv]
      simp only [build_query_from_plan, htab]
      rw [heq]
    · intro hv
      have heq : validate_query (composeQuery plan t) = (false, (validate_query (composeQuery plan t)).2) := by
        rw [← hv]
      simp only [build_query_from_plan, htab]
      rw [heq]

/-- Claim C7 witness: the empty-tables plan produces the construction error. -/
theorem build_query_from_plan_spec_witness :
    build_query_from_plan emptyTablesPlan
      = .error (s2l "Query plan must specify at least one table") :=
  (build_query_from_plan_spec emptyTablesPlan).1 rfl

/-! ## Claim C9: large results render 10 sample rows plus a remainder note -/

/-- Claim C9: a successful multi-column result with more than 20 rows is
rendered by the summary branch: exactly the first 10 rows as a table, then a
blank line, then a trailing line citing `row_count - 10` more rows.  `hrc` is
the data-model invariant relating `row_count` to the rows (claim C6). -/
theorem format_result_large_summary (single : QueryResult → List Char → List Char)
    (r : QueryResult) (q : List Char)
    (hs : r.success = true) (hc : 2 ≤ r.columns.length) (hn : 20 < r.row_count)
    (hrc : r.row_count = r.rows.length) :
    format_result single r q = format_summary r ∧
    (r.rows.take 10).length = 10 ∧
    format_summary r = joinSep (s2l "\n")
      [s2l "✓ Found " ++ s2l (toString r.row_count) ++ s2l " result(s).", [],
       s2l "Showing first 10 rows:", [],
       format_table { success := true, columns := r.columns, rows := r.rows.take 10,
                      row_count := 10, execution_time := r.execution_time, error := none },
       [],
       s2l "... and " ++ s2l (toString (r.row_count - 10)) ++ s2l " more rows."] := by
  refine ⟨?_, ?_, rfl⟩
  · have h0 : (r.row_count == 0) = false := by simp; omega
    have h1 : (r.row_count == 1) = false := by simp; omega
    have hc1 : (r.columns.length == 1) = false := by simp; omega
    have h20 : ¬ (r.row_count ≤ 20) := by omega
    rw [format_result]
    simp [hs, h0, h1, hc1, h20]
  · rw [List.length_take]
    omega

set_option maxRecDepth 40000 in
/-- Claim C9 witness: the 25-row result renders 10 sample rows and a note
citing 15 remaining rows. -/
theorem format_result_large_summary_witness :
    (format_result (fun _ _ => []) sampleWide [] = format_summary sampleWide ∧
     (sampleWide.rows.take 10).length = 10 ∧
     format_summary sampleWide = joinSep (s2l "\n")
       [s2l "✓ Found " ++ s2l (toString sampleWide.row_count) ++ s2l " result(s).", [],
        s2l "Showing first 10 rows:", [],
        format_table { success := true, columns := sampleWide.columns,
                       rows := sampleWide.rows.take 10, row_count := 10,
                       execution_time := sampleWide.execution_time, error := none },
        [],
        s2l "... and " ++ s2l (toString (sampleWide.row_count - 10)) ++ s2l " more rows."]) ∧
    substrIn (s2l "... and 15 more rows.") (format_summary sampleWide) = true :=
  ⟨format_result_large_summary (fun _ _ => []) sampleWide []
      rfl (by decide) (by decide) (by decide),
   by decide⟩

/-! ## Claim C10: header cells are padded but never truncated -/

lemma le_foldl_max (rows : List (List (List Char))) (i : Nat) (a : Nat) :
    a ≤ rows.foldl (fun m row => max m ((row.getD i []).length)) a := by
  induction rows generalizing a with
  | nil => exact le_refl a
  | cons r rs ih => exact le_trans (le_max_left a _) (ih _)

lemma colWidth_eq_50 (rows : List (List (List Char))) (i : Nat) (col : List Char)
    (h : 50 < col.length) : colWidth rows i col = 50 := by
  unfold colWidth
  have hle := le_foldl_max rows i col.length
  omega

lemma colWidthsAux_length (rows : List (List (List Char))) :
    ∀ (cols : List (List Char)) (k : Nat), (colWidthsAux rows k cols).length = cols.length := by
  intro cols
  induction cols with
  | nil => intro k; rfl
  | cons c cs ih => intro k; simp [colWidthsAux, ih]

lemma colWidthsAux_getD (rows : List (List (List Char))) :
    ∀ (cols : List (List Char)) (k i : Nat), i < cols.length →
      (colWidthsAux rows k cols).getD i 0 = colWidth rows (k + i) (cols.getD i []) := by
  intro cols
  induction cols with
  | nil => intro k i h; cases h
  | cons c cs ih =>
    intro k i h
    cases i with
    | zero => rfl
    | succ j =>
      have hj : j < cs.length := Nat.lt_of_succ_lt_succ h
      have := ih (k + 1) j hj
      simpa [colWidthsAux, List.getD, Nat.add_assoc, Nat.add_comm 1 j] using this

lemma getD_zipWith {α β γ : Type} (f : α → β → γ) :
    ∀ (as : List α) (bs : List β) (i : Nat) (d1 : α) (d2 : β) (d3 : γ),
      i < as.length → i < bs.length →
      (List.zipWith f as bs).getD i d3 = f (as.getD i d1) (bs.getD i d2) := by
  intro as
  induction as with
  | nil => intro bs i d1 d2 d3 h1 h2; cases h1
  | cons a as ih =>
    intro bs i d1 d2 d3 h1 h2
    cases bs with
    | nil => cases h2
    | cons b bs =>
      cases i with
      | zero => rfl
      | succ j =>
        have := ih bs j d1 d2 d3 (Nat.lt_of_succ_lt_succ h1) (Nat.lt_of_succ_lt_succ h2)
        simpa [List.getD] using this

lemma getD_mem {α : Type} (l : List α) (i : Nat) (d : α) (h : i < l.length) :
    l.getD i d ∈ l := by
  induction l generalizing i with
  | nil => cases h
  | cons a as ih =>
    cases i with
    | zero => exact List.mem_cons_self a as
    | succ j => exact List.mem_cons_of_mem a (ih j (Nat.lt_of_succ_lt_succ h))

lemma ljustL_length (s : List Char) (w : Nat) : (ljustL s w).length = max s.length w := by
  unfold ljustL
  simp
  omega

lemma ljustL_of_le (s : List Char) (w : Nat) (h : w ≤ s.length) : ljustL s w = s := by
  unfold ljustL
  have : w - s.length = 0 := by omega
  simp [this]

lemma startsWithL_self_append (x b : List Char) : startsWithL x (x ++ b) = true := by
  induction x with
  | nil => rfl
  | cons c cs ih => simp [startsWithL, ih]

lemma substrIn_self_append (x b : List Char) : substrIn x (x ++ b) = true := by
  cases x with
  | nil =>
    cases b with
    | nil => rfl
    | cons c r => rfl
  | cons c cs =>
    show substrIn (c :: cs) (c :: (cs ++ b)) = true
    have h1 : startsWithL (c :: cs) ((c :: cs) ++ b) = true := startsWithL_self_append (c :: cs) b
    simp only [List.cons_append] at h1
    simp [substrIn, h1]

lemma substrIn_append_left (p a b : List Char) (h : substrIn p b = true) :
    substrIn p (a ++ b) = true := by
  induction a with
  | nil => simpa using h
  | cons c cs ih => simp [substrIn, ih]

lemma joinSep_mem_decomp (sep : List Char) :
    ∀ (parts : List (List Char)) (x : List Char), x ∈ parts →
      ∃ A B, joinSep sep parts = A ++ (x ++ B) := by
  intro parts
  induction parts with
  | nil => intro x hx; cases hx
  | cons p ps ih =>
    intro x hx
    rcases List.mem_cons.mp hx with hx | hx
    · subst hx
      cases ps with
      | nil => exact ⟨[], [], by simp [joinSep]⟩
      | cons y rest =>
        refine ⟨[], sep ++ joinSep sep (y :: rest), ?_⟩
        simp [joinSep]
    · have hps : ps ≠ [] := List.ne_nil_of_mem hx
      obtain ⟨y, rest, hyr⟩ := List.exists_cons_of_ne_nil hps
      obtain ⟨A, B, hAB⟩ := ih x hx
      refine ⟨p ++ sep ++ A, B, ?_⟩
      subst hyr
      simp [joinSep, hAB]

lemma substrIn_joinSep (sep : List Char) (parts : List (List Char)) (x : List Char)
    (h : x ∈ parts) : substrIn x (joinSep sep parts) = true := by
  obtain ⟨A, B, hAB⟩ := joinSep_mem_decomp sep parts x h
  rw [hAB]
  exact substrIn_append_left x A (x ++ B) (substrIn_self_append x B)

/-- Claim C10: in `_format_table`, a column whose name is longer than the
50-character cap gets width exactly 50; its header cell is the full column
name (left-justification never truncates), which therefore appears
untruncated in the header line, while each data cell below it is padded and
then cut to exactly 50 characters. -/
theorem format_table_header_untruncated (r : QueryResult) (i : Nat)
    (hi : i < r.columns.length)
    (hw : 50 < (r.columns.getD i []).length) :
    (colWidths r).getD i 0 = 50 ∧
    (headerCells r).getD i [] = r.columns.getD i [] ∧
    substrIn (r.columns.getD i []) (headerLine r) = true ∧
    (∀ row ∈ r.rows, row.length = r.columns.length →
      (dataCells row (colWidths r)).getD i [] = (ljustL (row.getD i []) 50).take 50 ∧
      ((dataCells row (colWidths r)).getD i []).length = 50) := by
  have hwl : (colWidths r).length = r.columns.length := colWidthsAux_length r.rows r.columns 0
  have hiw : i < (colWidths r).length := by omega
  have h50 : (colWidths r).getD i 0 = 50 := by
    rw [colWidths, colWidthsAux_getD r.rows r.columns 0 i hi]
    simpa using colWidth_eq_50 r.rows i (r.columns.getD i []) hw
  have hcell : (headerCells r).getD i [] = r.columns.getD i [] := by
    rw [headerCells, getD_zipWith ljustL r.columns (colWidths r) i [] 0 [] hi hiw, h50]
    exact ljustL_of_le _ _ (by omega)
  refine ⟨h50, hcell, ?_, ?_⟩
  · have hlen : (headerCells r).length = min r.columns.length (colWidths r).length := by
      simp [headerCells]
    have hic : i < (headerCells r).length := by omega
    have hm : r.columns.getD i [] ∈ headerCells r := by
      rw [← hcell]
      exact getD_mem (headerCells r) i [] hic
    exact substrIn_joinSep (s2l " | ") (headerCells r) _ hm
  · intro row hrow hrl
    have hir : i < row.length := by omega
    have hdc : (dataCells row (colWidths r)).getD i []
        = (ljustL (row.getD i []) ((colWidths r).getD i 0)).take ((colWidths r).getD i 0) := by
      rw [dataCells, getD_zipWith (fun v w => (ljustL v w).take w) row (colWidths r) i [] 0 [] hir hiw]
    rw [hdc, h50]
    refine ⟨rfl, ?_⟩
    rw [List.length_take, ljustL_length]
    omega

set_option maxRecDepth 40000 in
/-- Claim C10 witness: the 51-character column name at index 0. -/
theorem format_table_header_untruncated_witness :
    (colWidths wideColResult).getD 0 0 = 50 ∧
    (headerCells wideColResult).getD 0 [] = wideColResult.columns.getD 0 [] ∧
    substrIn (wideColResult.columns.getD 0 []) (headerLine wideColResult) = true ∧
    (∀ row ∈ wideColResult.rows, row.length = wideColResult.columns.length →
      (dataCells row (colWidths wideColResult)).getD 0 []
        = (ljustL (row.getD 0 []) 50).take 50 ∧
      ((dataCells row (colWidths wideColResult)).getD 0 []).length = 50) :=
  format_table_header_untruncated wideColResult 0 (by decide) (by decide)

/-! ## Claim C8: optimize_query and idempotence.
First, the normal-form development: `stripL (collapseWS s)` is a fixed point
on `tidy` strings, and always produces a `tidy` string. -/

lemma space_isSpace : isSpaceC ' ' = true := by decide

lemma tidyTail_to_loose : ∀ s, tidyTail s = true → looseTail s = true := by
  intro s
  induction s with
  | nil => intro _; rfl
  | cons c rest ih =>
    intro h
    cases rest with
    | nil =>
      rw [tidyTail] at h
      rw [looseTail, h]
      simp
    | cons d r =>
      rw [tidyTail, Bool.and_eq_true] at h
      rw [looseTail, Bool.and_eq_true]
      exact ⟨h.1, ih h.2⟩

lemma collapseAux_space (b : Bool) (rest : List Char) :
    collapseAux b (' ' :: rest) =
      (if b then ([] : List Char) else [' ']) ++ collapseAux true rest := by
  cases b <;> simp [collapseAux, space_isSpace]

lemma collapseAux_nonspace (b : Bool) (c : Char) (rest : List Char) (h : isSpaceC c = false) :
    collapseAux b (c :: rest) = c :: collapseAux false rest := by
  cases b <;> simp [collapseAux, h]

lemma collapseAux_eq_self : ∀ s, tidyTail s = true →
    collapseAux false s = s ∧ (headOk s = true → collapseAux true s = s) := by
  intro s
  induction s with
  | nil => exact fun _ => ⟨rfl, fun _ => rfl⟩
  | cons c rest ih =>
    intro h
    cases rest with
    | nil =>
      rw [tidyTail] at h
      have hcs : isSpaceC c = false := by
        cases hs : isSpaceC c with
        | false => rfl
        | true => rw [hs] at h; simp at h
      refine ⟨?_, fun _ => ?_⟩
      · rw [collapseAux_nonspace false c [] hcs]
        rfl
      · rw [collapseAux_nonspace true c [] hcs]
        rfl
    | cons d r =>
      rw [tidyTail, Bool.and_eq_true] at h
      cases hc : (c == ' ') with
      | true =>
        have hceq : c = ' ' := eq_of_beq hc
        subst hceq
        have hd : isSpaceC d = false := by
          have h1 := h.1
          rw [hc] at h1
          simpa using h1
        have htr : collapseAux true (d :: r) = d :: r :=
          (ih h.2).2 (by simp [headOk, hd])
        constructor
        · rw [collapseAux_space false (d :: r)]
          simp [htr]
        · intro hh
          simp [headOk, space_isSpace] at hh
      | false =>
        have hcs : isSpaceC c = false := by
          have h1 := h.1
          rw [hc] at h1
          simpa using h1
        have h1 := (ih h.2).1
        refine ⟨?_, fun _ => ?_⟩
        · rw [collapseAux_nonspace false c (d :: r) hcs, h1]
        · rw [collapseAux_nonspace true c (d :: r) hcs, h1]

lemma collapseWS_eq_self (s : List Char) (h : tidyTail s = true) : collapseWS s = s :=
  (collapseAux_eq_self s h).1

lemma ltrim_eq_self (s : List Char) (h : headOk s = true) : ltrim s = s := by
  cases s with
  | nil => rfl
  | cons c rest =>
    rw [headOk] at h
    have : isSpaceC c = false := by
      cases hs : isSpaceC c with
      | false => rfl
      | true => rw [hs] at h; simp at h
    simp [ltrim, List.dropWhile_cons, this]

lemma rdrop_eq_self (p : Char → Bool) : ∀ s, lastP p s = true → rdrop p s = s := by
  intro s
  induction s with
  | nil => intro _; rfl
  | cons c rest ih =>
    intro h
    cases rest with
    | nil =>
      rw [lastP] at h
      simp only [List.getLast?_singleton] at h
      have hp : p c = false := by
        cases hpc : p c with
        | false => rfl
        | true => rw [hpc] at h; simp at h
      simp [rdrop, hp]
    | cons d r =>
      have htail : lastP p (d :: r) = true := by
        rw [lastP] at h ⊢
        rwa [List.getLast?_cons_cons] at h
      have := ih htail
      rw [rdrop, this]

lemma tidyTail_lastP : ∀ s, tidyTail s = true → lastP isSpaceC s = true := by
  intro s
  induction s with
  | nil => intro _; rfl
  | cons c rest ih =>
    intro h
    cases rest with
    | nil =>
      rw [tidyTail] at h
      rw [lastP]
      simp only [List.getLast?_singleton]
      exact h
    | cons d r =>
      rw [tidyTail, Bool.and_eq_true] at h
      have := ih h.2
      rw [lastP, List.getLast?_cons_cons]
      rw [lastP] at this
      exact this

lemma stripL_eq_self (s : List Char) (hh : headOk s = true) (hl : lastP isSpaceC s = true) :
    stripL s = s := by
  rw [stripL, ltrim_eq_self s hh, rdrop_eq_self isSpaceC s hl]

lemma norm_fixed (s : List Char) (h : tidy s = true) : stripL (collapseWS s) = s := by
  rw [tidy, Bool.and_eq_true] at h
  rw [collapseWS_eq_self s h.2, stripL_eq_self s h.1 (tidyTail_lastP s h.2)]

lemma collapseAux_loose : ∀ (s : List Char) (flag : Bool),
    looseTail (collapseAux flag s) = true ∧
    (flag = true → headOk (collapseAux flag s) = true) := by
  intro s
  induction s with
  | nil => intro flag; exact ⟨rfl, fun _ => rfl⟩
  | cons c rest ih =>
    intro flag
    cases hcs : isSpaceC c with
    | true =>
      cases flag with
      | true =>
        have hskip : collapseAux true (c :: rest) = collapseAux true rest := by
          simp [collapseAux, hcs]
        rw [hskip]
        exact ⟨(ih true).1, fun _ => (ih true).2 rfl⟩
      | false =>
        have hst : collapseAux false (c :: rest) = ' ' :: collapseAux true rest := by
          simp [collapseAux, hcs]
        rw [hst]
        have hl := (ih true).1
        have hh := (ih true).2 rfl
        refine ⟨?_, fun hf => by cases hf⟩
        cases hout : collapseAux true rest with
        | nil => rfl
        | cons d out =>
          rw [hout] at hl hh
          rw [looseTail]
          rw [headOk] at hh
          simp [hl, hh]
    | false =>
      have hst : collapseAux flag (c :: rest) = c :: collapseAux false rest := by
        cases flag <;> simp [collapseAux, hcs]
      rw [hst]
      have hl := (ih false).1
      have hc : (c == ' ') = false := by
        cases hcc : c == ' ' with
        | false => rfl
        | true =>
          have : c = ' ' := eq_of_beq hcc
          subst this
          rw [space_isSpace] at hcs
          cases hcs
      refine ⟨?_, fun _ => by rw [headOk, hcs]; rfl⟩
      cases hout : collapseAux false rest with
      | nil => rw [looseTail, hc]; simp [hcs]
      | cons d out =>
        rw [hout] at hl
        rw [looseTail, hc]
        simp [hcs, hl]

lemma looseTail_append_left : ∀ (a b : List Char), looseTail (a ++ b) = true → looseTail a = true := by
  intro a
  induction a with
  | nil => intro b _; rfl
  | cons c rest ih =>
    intro b h
    cases rest with
    | nil =>
      cases b with
      | nil => simpa using h
      | cons e bo =>
        simp only [List.cons_append, List.nil_append] at h
        rw [looseTail] at h
        rw [looseTail]
        cases hc : c == ' ' with
        | true => simp [hc]
        | false =>
          simp only [Bool.and_eq_true] at h
          have h1 := h.1
          rw [hc] at h1
          simpa using h1
    | cons d r =>
      simp only [List.cons_append] at h
      rw [looseTail] at h
      simp only [Bool.and_eq_true] at h
      rw [looseTail, Bool.and_eq_true]
      have h2 : looseTail (d :: r) = true := ih b h.2
      exact ⟨h.1, h2⟩

lemma rdrop_append_exists (p : Char → Bool) : ∀ s : List Char, ∃ t, s = rdrop p s ++ t := by
  intro s
  induction s with
  | nil => exact ⟨[], rfl⟩
  | cons c rest ih =>
    obtain ⟨t, ht⟩ := ih
    cases hr : rdrop p rest with
    | nil =>
      cases hp : p c with
      | true =>
        refine ⟨c :: rest, ?_⟩
        rw [rdrop, hr]
        simp [hp]
      | false =>
        refine ⟨rest, ?_⟩
        rw [rdrop, hr]
        simp [hp]
    | cons d r' =>
      refine ⟨t, ?_⟩
      rw [rdrop, hr]
      rw [hr] at ht
      simp only [List.cons_append]
      rw [ht]
      simp

lemma rdrop_lastP (p : Char → Bool) : ∀ s : List Char, lastP p (rdrop p s) = true := by
  intro s
  induction s with
  | nil => rfl
  | cons c rest ih =>
    cases hr : rdrop p rest with
    | nil =>
      cases hp : p c with
      | true => rw [rdrop, hr]; simp [hp]; rfl
      | false => rw [rdrop, hr]; simp [hp]; rw [lastP]; simp [hp]
    | cons d r' =>
      rw [rdrop, hr]
      rw [hr] at ih
      rw [lastP, List.getLast?_cons_cons]
      rw [lastP] at ih
      exact ih

lemma headOk_append_left (a b : List Char) (h : headOk (a ++ b) = true) (hne : a ≠ []) :
    headOk a = true := by
  cases a with
  | nil => exact absurd rfl hne
  | cons c r => simpa [headOk] using h

lemma headOk_append_right (a b : List Char) (ha : headOk a = true) (hb : headOk b = true) :
    headOk (a ++ b) = true := by
  cases a with
  | nil => simpa using hb
  | cons c r => simpa [headOk] using ha

lemma ltrim_loose (s : List Char) (h : looseTail s = true) :
    looseTail (ltrim s) = true ∧ headOk (ltrim s) = true := by
  cases s with
  | nil => exact ⟨rfl, rfl⟩
  | cons c rest =>
    cases hcs : isSpaceC c with
    | false =>
      have : ltrim (c :: rest) = c :: rest := by simp [ltrim, List.dropWhile_cons, hcs]
      rw [this]
      exact ⟨h, by rw [headOk, hcs]; rfl⟩
    | true =>
      have hc : (c == ' ') = true := by
        cases hcc : c == ' ' with
        | true => rfl
        | false =>
          exfalso
          cases rest with
          | nil =>
            rw [looseTail, hcc] at h
            simp [hcs] at h
          | cons d r =>
            rw [looseTail, hcc] at h
            simp [hcs] at h
      have hlt : ltrim (c :: rest) = ltrim rest := by simp [ltrim, List.dropWhile_cons, hcs]
      rw [hlt]
      cases rest with
      | nil => exact ⟨rfl, rfl⟩
      | cons d r =>
        rw [looseTail, hc] at h
        simp only [if_true, Bool.and_eq_true] at h
        have hd : isSpaceC d = false := by simpa using h.1
        have : ltrim (d :: r) = d :: r := by simp [ltrim, List.dropWhile_cons, hd]
        rw [this]
        exact ⟨h.2, by rw [headOk, hd]; rfl⟩

lemma looseTail_lastP_tidy : ∀ s : List Char, looseTail s = true →
    lastP isSpaceC s = true → tidyTail s = true := by
  intro s
  induction s with
  | nil => intro _ _; rfl
  | cons c rest ih =>
    intro hl hp
    cases rest with
    | nil =>
      rw [lastP] at hp
      simp only [List.getLast?_singleton] at hp
      rw [tidyTail]
      simpa using hp
    | cons d r =>
      rw [looseTail, Bool.and_eq_true] at hl
      have hp2 : lastP isSpaceC (d :: r) = true := by
        rw [lastP] at hp ⊢
        rwa [List.getLast?_cons_cons] at hp
      rw [tidyTail, Bool.and_eq_true]
      exact ⟨hl.1, ih hl.2 hp2⟩

lemma tidy_norm (x : List Char) : tidy (stripL (collapseWS x)) = true := by
  have hu : looseTail (collapseWS x) = true := (collapseAux_loose x false).1
  obtain ⟨hlv, hhv⟩ := ltrim_loose (collapseWS x) hu
  have hw1 : lastP isSpaceC (rdrop isSpaceC (ltrim (collapseWS x))) = true :=
    rdrop_lastP isSpaceC (ltrim (collapseWS x))
  obtain ⟨t, htv⟩ := rdrop_append_exists isSpaceC (ltrim (collapseWS x))
  have hlw : looseTail (rdrop isSpaceC (ltrim (collapseWS x))) = true := by
    apply looseTail_append_left _ t
    rw [← htv]
    exact hlv
  have htw : tidyTail (rdrop isSpaceC (ltrim (collapseWS x))) = true :=
    looseTail_lastP_tidy _ hlw hw1
  have hhw : headOk (rdrop isSpaceC (ltrim (collapseWS x))) = true := by
    cases hwe : rdrop isSpaceC (ltrim (collapseWS x)) with
    | nil => rfl
    | cons d r =>
      apply headOk_append_left _ t
      · rw [← hwe, ← htv]
        exact hhv
      · simp
  rw [tidy, stripL, Bool.and_eq_true]
  exact ⟨hhw, htw⟩

lemma headOk_append_of_ne_nil (a b : List Char) (ha : headOk a = true) (hne : a ≠ []) :
    headOk (a ++ b) = true := by
  cases a with
  | nil => exact absurd rfl hne
  | cons c r => simpa [headOk] using ha

lemma tidyTail_append : ∀ (a b : List Char), looseTail a = true →
    lastP isSpaceC a = true → tidyTail b = true → tidyTail (a ++ b) = true := by
  intro a
  induction a with
  | nil => intro b _ _ hb; simpa using hb
  | cons c rest ih =>
    intro b ha hla hb
    cases rest with
    | nil =>
      have hc : isSpaceC c = false := by
        rw [lastP] at hla
        simp only [List.getLast?_singleton] at hla
        simpa using hla
      have hcb : (c == ' ') = false := by
        cases hcc : c == ' ' with
        | false => rfl
        | true =>
          have : c = ' ' := eq_of_beq hcc
          subst this
          rw [space_isSpace] at hc
          cases hc
      cases b with
      | nil =>
        simp only [List.append_nil]
        rw [tidyTail]
        simpa using hc
      | cons e bo =>
        simp only [List.cons_append, List.nil_append]
        rw [tidyTail, hcb, Bool.and_eq_true]
        exact ⟨by simp [hc], hb⟩
    | cons d r =>
      rw [looseTail, Bool.and_eq_true] at ha
      have hla2 : lastP isSpaceC (d :: r) = true := by
        rw [lastP] at hla ⊢
        rwa [List.getLast?_cons_cons] at hla
      have := ih b ha.2 hla2 hb
      simp only [List.cons_append] at this ⊢
      rw [tidyTail, Bool.and_eq_true]
      exact ⟨ha.1, this⟩

lemma getLast?_append_right (a : List Char) : ∀ b : List Char, b ≠ [] →
    (a ++ b).getLast? = b.getLast? := by
  induction a with
  | nil => intro b _; rfl
  | cons c rest ih =>
    intro b hb
    have h1 : rest ++ b ≠ [] := by
      intro he
      exact hb (List.append_eq_nil.mp he).2
    cases he : rest ++ b with
    | nil => exact absurd he h1
    | cons d r' =>
      have := ih b hb
      rw [he] at this
      simp only [List.cons_append, he, List.getLast?_cons_cons]
      exact this

lemma endsWithSemi_concat (a : List Char) : endsWithSemi (a ++ [';']) = true := by
  rw [endsWithSemi, getLast?_append_right a [';'] (by simp)]
  rfl

lemma rdrop_append_singleton (p : Char → Bool) (c : Char) (hp : p c = true) :
    ∀ a : List Char, rdrop p (a ++ [c]) = rdrop p a := by
  intro a
  induction a with
  | nil => simp [rdrop, hp]
  | cons x a' ih =>
    simp only [List.cons_append, rdrop, List.append_eq]
    rw [ih]

lemma upperL_append (a b : List Char) : upperL (a ++ b) = upperL a ++ upperL b := by
  simp [upperL]

lemma ensureSemi_endsWith (s : List Char) : endsWithSemi (ensureSemi s) = true := by
  rw [ensureSemi]
  cases h : endsWithSemi s with
  | true => simpa using h
  | false =>
    simp only [Bool.false_eq_true, if_false]
    exact endsWithSemi_concat s

lemma tidy_ensureSemi (s : List Char) (h : tidy s = true) : tidy (ensureSemi s) = true := by
  rw [tidy, Bool.and_eq_true] at h
  rw [ensureSemi]
  cases he : endsWithSemi s with
  | true => simp [tidy, h.1, h.2]
  | false =>
    simp only [Bool.false_eq_true, if_false]
    rw [tidy, Bool.and_eq_true]
    constructor
    · cases s with
      | nil => decide
      | cons c r => exact headOk_append_of_ne_nil (c :: r) [';'] h.1 (by simp)
    · exact tidyTail_append s [';'] (tidyTail_to_loose s h.2) (tidyTail_lastP s h.2) (by decide)

lemma optimize_step (sql : List Char) : optimize_query sql =
    (if !substrIn (s2l "LIMIT") (upperL (ensureSemi (stripL (collapseWS sql))))
        && !substrIn (s2l "GROUP BY") (upperL (ensureSemi (stripL (collapseWS sql)))) then
      rstripSemi (ensureSemi (stripL (collapseWS sql)))
        ++ s2l " LIMIT " ++ s2l (toString DEFAULT_LIMIT) ++ [';']
    else ensureSemi (stripL (collapseWS sql))) := rfl

lemma optimize_fixed (r : List Char) (htidy : tidy r = true) (hsemi : endsWithSemi r = true)
    (hlg : substrIn (s2l "LIMIT") (upperL r) = true
         ∨ substrIn (s2l "GROUP BY") (upperL r) = true) :
    optimize_query r = r := by
  have h1 : stripL (collapseWS r) = r := norm_fixed r htidy
  have h2 : ensureSemi (stripL (collapseWS r)) = r := by
    rw [h1, ensureSemi, hsemi]
    simp
  rw [optimize_step, h2]
  rcases hlg with hl | hl <;> simp [hl]

/-- Claim C8 (amended): `optimize_query` is idempotent for every input whose
normalized statement (after whitespace collapsing, stripping and semicolon
termination) already contains `LIMIT` or `GROUP BY` case-insensitively, or
whose normalized statement with trailing semicolons removed is non-empty and
does not end in whitespace.  The excluded degenerate inputs are exactly those
on which the injected ` LIMIT 100;` leaves a leading or doubled space that the
second application collapses. -/
theorem optimize_query_idempotent_amended (sql : List Char)
    (h : substrIn (s2l "LIMIT") (upperL (ensureSemi (stripL (collapseWS sql)))) = true
       ∨ substrIn (s2l "GROUP BY") (upperL (ensureSemi (stripL (collapseWS sql)))) = true
       ∨ (rstripSemi (stripL (collapseWS sql)) ≠ [] ∧
          lastP isSpaceC (rstripSemi (stripL (collapseWS sql))) = true)) :
    optimize_query (optimize_query sql) = optimize_query sql := by
  have htidy1 : tidy (stripL (collapseWS sql)) = true := tidy_norm sql
  have htidy2 : tidy (ensureSemi (stripL (collapseWS sql))) = true :=
    tidy_ensureSemi _ htidy1
  have hsemi2 : endsWithSemi (ensureSemi (stripL (collapseWS sql))) = true :=
    ensureSemi_endsWith _
  cases hA : substrIn (s2l "LIMIT") (upperL (ensureSemi (stripL (collapseWS sql)))) with
  | true =>
    have hopt : optimize_query sql = ensureSemi (stripL (collapseWS sql)) := by
      rw [optimize_step, hA]
      simp
    rw [hopt]
    exact optimize_fixed _ htidy2 hsemi2 (Or.inl hA)
  | false =>
    cases hB : substrIn (s2l "GROUP BY") (upperL (ensureSemi (stripL (collapseWS sql)))) with
    | true =>
      have hopt : optimize_query sql = ensureSemi (stripL (collapseWS sql)) := by
        rw [optimize_step, hB]
        simp
      rw [hopt]
      exact optimize_fixed _ htidy2 hsemi2 (Or.inr hB)
    | false =>
      have h3 : rstripSemi (stripL (collapseWS sql)) ≠ [] ∧
          lastP isSpaceC (rstripSemi (stripL (collapseWS sql))) = true := by
        rcases h with h | h | h
        · rw [hA] at h; cases h
        · rw [hB] at h; cases h
        · exact h
      have hrs : rstripSemi (ensureSemi (stripL (collapseWS sql)))
          = rstripSemi (stripL (collapseWS sql)) := by
        rw [ensureSemi]
        cases he : endsWithSemi (stripL (collapseWS sql)) with
        | true => simp
        | false =>
          simp only [Bool.false_eq_true, if_false]
          exact rdrop_append_singleton (fun c => c == ';') ';' (by decide) _
      have hopt : optimize_query sql = rstripSemi (stripL (collapseWS sql))
          ++ (s2l " LIMIT " ++ (s2l (toString DEFAULT_LIMIT) ++ [';'])) := by
        rw [optimize_step, hA, hB, hrs]
        simp [List.append_assoc]
      obtain ⟨t, hdec⟩ := rdrop_append_exists (fun c => c == ';') (stripL (collapseWS sql))
      have hdec2 : stripL (collapseWS sql) = rstripSemi (stripL (collapseWS sql)) ++ t := hdec
      have hloose1 : looseTail (stripL (collapseWS sql)) = true := by
        rw [tidy, Bool.and_eq_true] at htidy1
        exact tidyTail_to_loose _ htidy1.2
      have hloosec : looseTail (rstripSemi (stripL (collapseWS sql))) = true := by
        apply looseTail_append_left _ t
        rw [← hdec2]
        exact hloose1
      have hheadc : headOk (rstripSemi (stripL (collapseWS sql))) = true := by
        apply headOk_append_left _ t
        · rw [← hdec2]
          rw [tidy, Bool.and_eq_true] at htidy1
          exact htidy1.1
        · exact h3.1
      have htidyr : tidy (rstripSemi (stripL (collapseWS sql))
          ++ (s2l " LIMIT " ++ (s2l (toString DEFAULT_LIMIT) ++ [';']))) = true := by
        rw [tidy, Bool.and_eq_true]
        constructor
        · exact headOk_append_of_ne_nil _ _ hheadc h3.1
        · exact tidyTail_append _ _ hloosec h3.2 (by decide)
      have hsemir : endsWithSemi (rstripSemi (stripL (collapseWS sql))
          ++ (s2l " LIMIT " ++ (s2l (toString DEFAULT_LIMIT) ++ [';']))) = true := by
        rw [endsWithSemi, getLast?_append_right _ _ (by decide)]
        decide
      have hlimr : substrIn (s2l "LIMIT") (upperL (rstripSemi (stripL (collapseWS sql))
          ++ (s2l " LIMIT " ++ (s2l (toString DEFAULT_LIMIT) ++ [';'])))) = true := by
        rw [upperL_append]
        exact substrIn_append_left _ _ _ (by decide)
      rw [hopt]
      exact optimize_fixed _ htidyr hsemir (Or.inl hlimr)

set_option maxRecDepth 40000 in
/-- Claim C8 witness: a well-formed statement is a fixed point after one
application. -/
theorem optimize_query_idempotent_amended_witness :
    optimize_query (optimize_query (s2l "SELECT name FROM t")) =
      optimize_query (s2l "SELECT name FROM t") :=
  optimize_query_idempotent_amended (s2l "SELECT name FROM t")
    (Or.inr (Or.inr (by decide)))

set_option maxRecDepth 40000 in
/-- Claim C8 counterexample: `optimize_query` is not idempotent as claimed.
On `"SELECT 1 ;"` the first application appends the default limit after the
space left by `rstrip(';')`, producing a doubled space that the second
application's whitespace normalization removes. -/
theorem optimize_query_not_idempotent :
    optimize_query (s2l "SELECT 1 ;") = s2l "SELECT 1  LIMIT 100;" ∧
    optimize_query (optimize_query (s2l "SELECT 1 ;")) = s2l "SELECT 1 LIMIT 100;" ∧
    optimize_query (optimize_query (s2l "SELECT 1 ;")) ≠ optimize_query (s2l "SELECT 1 ;") :=
  ⟨by decide, by decide, by decide⟩

end TalkDB
